import Mathlib

/-!
Shallow embedding of the export2hdf5 core: the channel/dataset model
(`utilities_general.py`), the NeurOne event codec (`utilities_neurone.py`),
the HDF5 container writer (`utilities_h5.py`) and the export orchestrator
(`export_hdf5.py`).  Machine integers are modelled as `Nat`/`Int` with
explicit reductions modulo `2^32` / `2^64`; Python exceptions become
`Except String` / `Option` failures; an HDF5 file is an explicit state
value recording the groups, dataset leaves and attributes created.
-/

/-- A channel record, `{"meta": {...}, "data": {"time": [...], "<ch>": [...]}}`.
Metadata values and data samples keep dictionary insertion order as
association lists. -/
structure ChannelRecord where
  meta : List (String × String)
  data : List (String × List Rat)
deriving DecidableEq

/-- The nested accumulation loop of `get_channels_in_set`
(`utilities_general.py` lines 33-37): collect the data-field names of every
record, first-seen order, skipping names already collected. -/
def collectNames (dataset : List ChannelRecord) : List String :=
  dataset.foldl
    (fun acc r =>
      r.data.foldl (fun acc2 kv => if kv.1 ∈ acc2 then acc2 else acc2 ++ [kv.1]) acc)
    []

/-- `get_channels_in_set` (`utilities_general.py` lines 18-40).  The source
computes `channels.index("time")` and deletes that element; `index` raises
`ValueError` when `"time"` is absent (modelled as `none`), and deleting the
element at the index of the first occurrence is `List.erase`. -/
def get_channels_in_set (dataset : List ChannelRecord) : Option (List String) :=
  let channels := collectNames dataset
  if "time" ∈ channels then some (channels.erase "time") else none

/-- Specification-side first-seen deduplication of a flat name list,
to compare with `collectNames` over the flattened record names. -/
def dedupFS (l : List String) : List String :=
  l.foldl (fun acc x => if x ∈ acc then acc else acc ++ [x]) []

/-- All data-field names of a dataset, flattened in record order. -/
def flatNames (dataset : List ChannelRecord) : List String :=
  (dataset.map (fun r => r.data.map Prod.fst)).flatten

/-- Wildcard expansion (`export_hdf5.py` lines 164-165 and
`utilities_h5.py` lines 64-66): a channel selector equal to `["*"]` is
replaced by the channels resolved from the dataset, any other selector is
kept as is. -/
def expandChannels (data : List ChannelRecord) (channels : List String) :
    Option (List String) :=
  if channels = ["*"] then get_channels_in_set data else some channels

/-- Wire-format NeurOne event record: the sixteen fields of
`get_n1_event_format` (`utilities_neurone.py` lines 152-168), in order.
`Int32sl` fields are signed (`Int`), `Int64ul` fields unsigned (`Nat`). -/
structure NWire where
  revision : Int
  rfu1 : Int
  type_ : Int
  sourcePort : Int
  channelNumber : Int
  code : Int
  startSampleIndex : Nat
  stopSampleIndex : Nat
  descriptionLength : Nat
  descriptionOffset : Nat
  dataLength : Nat
  dataOffset : Nat
  rfu2 : Int
  rfu3 : Int
  rfu4 : Int
  rfu5 : Int
deriving DecidableEq

/-- Little-endian value of a byte list. -/
def readLE (bs : List Nat) : Nat :=
  bs.foldr (fun b acc => b + 256 * acc) 0

/-- The `n` bytes of `bs` starting at offset `off`. -/
def bytesAt (bs : List Nat) (off n : Nat) : List Nat :=
  (bs.drop off).take n

/-- Unsigned little-endian 32-bit read at an offset. -/
def u32At (bs : List Nat) (off : Nat) : Nat :=
  readLE (bytesAt bs off 4) % 2 ^ 32

/-- Signed little-endian 32-bit read at an offset (`Int32sl`). -/
def i32At (bs : List Nat) (off : Nat) : Int :=
  let u := u32At bs off
  if u < 2 ^ 31 then (u : Int) else (u : Int) - 2 ^ 32

/-- Unsigned little-endian 64-bit read at an offset (`Int64ul`). -/
def u64At (bs : List Nat) (off : Nat) : Nat :=
  readLE (bytesAt bs off 8) % 2 ^ 64

/-- `format.parse` of one 88-byte chunk: field offsets follow the struct
layout, six signed 32-bit fields, six unsigned 64-bit fields, four trailing
signed 32-bit reserved fields. -/
def parse88 (bs : List Nat) : NWire :=
  { revision := i32At bs 0
    rfu1 := i32At bs 4
    type_ := i32At bs 8
    sourcePort := i32At bs 12
    channelNumber := i32At bs 16
    code := i32At bs 20
    startSampleIndex := u64At bs 24
    stopSampleIndex := u64At bs 32
    descriptionLength := u64At bs 40
    descriptionOffset := u64At bs 48
    dataLength := u64At bs 56
    dataOffset := u64At bs 64
    rfu2 := i32At bs 72
    rfu3 := i32At bs 76
    rfu4 := i32At bs 80
    rfu5 := i32At bs 84 }

/-- Reduce an unsigned value to numpy `int64` (wraps at `2^63`). -/
def toInt64 (n : Nat) : Int :=
  if n % 2 ^ 64 < 2 ^ 63 then ((n % 2 ^ 64 : Nat) : Int)
  else ((n % 2 ^ 64 : Nat) : Int) - 2 ^ 64

/-- Conversion of a Python float to numpy `int64`: truncation toward zero
(`Int.tdiv` is truncated division). -/
def truncRat (q : ℚ) : Int :=
  q.num.tdiv (q.den : Int)

/-- One row of the structured event array built at
`utilities_neurone.py` lines 222-239: the eleven payload fields cast to the
declared dtype (`np.int32` / `np.int64`), plus `StartTime` and `StopTime`,
computed as `SampleIndex / sampling_rate` and then cast to the declared
`np.int64`. -/
structure NRow where
  revision : Int
  type_ : Int
  sourcePort : Int
  channelNumber : Int
  code : Int
  startSampleIndex : Int
  stopSampleIndex : Int
  descriptionLength : Int
  descriptionOffset : Int
  dataLength : Int
  dataOffset : Int
  startTime : Int
  stopTime : Int
deriving DecidableEq

/-- Build a structured-array row from a parsed wire record: the derived
times divide the raw sample index by the sampling rate, and every field is
then cast to the dtype declared at `utilities_neurone.py` lines 222-234
(the time fields are declared `np.int64`, so their float values truncate). -/
def rowOfWire (w : NWire) (rate : ℚ) : NRow :=
  { revision := w.revision
    type_ := w.type_
    sourcePort := w.sourcePort
    channelNumber := w.channelNumber
    code := w.code
    startSampleIndex := toInt64 w.startSampleIndex
    stopSampleIndex := toInt64 w.stopSampleIndex
    descriptionLength := toInt64 w.descriptionLength
    descriptionOffset := toInt64 w.descriptionOffset
    dataLength := toInt64 w.dataLength
    dataOffset := toInt64 w.dataOffset
    startTime := truncRat ((w.startSampleIndex : ℚ) / rate)
    stopTime := truncRat ((w.stopSampleIndex : ℚ) / rate) }

/-- `read_neurone_events` on an in-memory byte stream
(`utilities_neurone.py` lines 204-241): the number of records is
`len / 88` rounded down, each 88-byte chunk is parsed independently and
turned into a row; when zero complete records are present the access
`events[0]` at line 237 raises `IndexError`. -/
def read_neurone_events (bs : List Nat) (rate : ℚ) : Except String (List NRow) :=
  let n := bs.length / 88
  if n = 0 then .error "IndexError"
  else .ok ((List.range n).map fun i => rowOfWire (parse88 (bytesAt bs (88 * i) 88)) rate)

/-- The sixteen wire fields, in struct order, with byte widths. -/
def eventFields : List (String × Nat) :=
  [("Revision", 4), ("RFU1", 4), ("Type", 4), ("SourcePort", 4),
   ("ChannelNumber", 4), ("Code", 4),
   ("StartSampleIndex", 8), ("StopSampleIndex", 8),
   ("DescriptionLength", 8), ("DescriptionOffset", 8),
   ("DataLength", 8), ("DataOffset", 8),
   ("RFU2", 4), ("RFU3", 4), ("RFU4", 4), ("RFU5", 4)]

/-- Little-endian bytes of a natural number, fixed width. -/
def bytesOfNat (n : Nat) : Nat → List Nat
  | 0 => []
  | w + 1 => n % 256 :: bytesOfNat (n / 256) w

/-- Serialize one field value at a given byte width (two's complement for
negative values, i.e. the mathematical residue modulo `2^(8w)`). -/
def bytesOfInt (v : Int) (w : Nat) : List Nat :=
  bytesOfNat (v.emod (2 ^ (8 * w))).toNat w

/-- Dictionary field lookup. -/
def lookupField (e : List (String × Int)) (k : String) : Option Int :=
  (e.find? (fun kv => kv.1 = k)).map Prod.snd

/-- Dictionary field assignment (`e[k] = v`). -/
def setField (e : List (String × Int)) (k : String) (v : Int) : List (String × Int) :=
  if e.any (fun kv => kv.1 = k) then
    e.map (fun kv => if kv.1 = k then (k, v) else kv)
  else e ++ [(k, v)]

/-- `format.build(e)`: serialize the sixteen fields in order; a missing
field raises (`KeyError`). -/
def buildEvent (e : List (String × Int)) : Except String (List Nat) :=
  eventFields.foldl
    (fun acc f =>
      match acc, lookupField e f.1 with
      | .error err, _ => .error err
      | .ok _, none => .error "KeyError"
      | .ok bs, some v => .ok (bs ++ bytesOfInt v f.2))
    (.ok [])

/-- The per-event body of `write_neurone_events`
(`utilities_neurone.py` lines 274-277), as written in the source: the
`file.write(format.build(e))` call sits INSIDE the loop that zero-fills
`RFU1`..`RFU5`, so a build is attempted after each single reserved field is
set. -/
def writeOneEvent (e : List (String × Int)) : Except String (List Nat) :=
  (([1, 2, 3, 4, 5] : List Nat).foldl
    (fun (acc : Except String (List (String × Int) × List Nat)) j =>
      match acc with
      | .error err => .error err
      | .ok st =>
        let e2 := setField st.1 ("RFU" ++ toString j) 0
        match buildEvent e2 with
        | .error err => .error err
        | .ok bs => .ok (e2, st.2 ++ bs))
    (.ok (e, []))).map Prod.snd

/-- `write_neurone_events` (`utilities_neurone.py` lines 244-277) on an
in-memory byte sink: concatenate the bytes produced for each event. -/
def write_neurone_events (events : List (List (String × Int))) : Except String (List Nat) :=
  events.foldl
    (fun acc e =>
      match acc, writeOneEvent e with
      | .error err, _ => .error err
      | .ok out, .ok bs => .ok (out ++ bs)
      | .ok _, .error err => .error err)
    (.ok [])

/-- Project a decoded row back to an event dictionary for re-encoding:
the two derived time fields are dropped, the reserved fields are absent
(the decoder deleted them). -/
def rowToDict (r : NRow) : List (String × Int) :=
  [("Revision", r.revision), ("Type", r.type_), ("SourcePort", r.sourcePort),
   ("ChannelNumber", r.channelNumber), ("Code", r.code),
   ("StartSampleIndex", r.startSampleIndex), ("StopSampleIndex", r.stopSampleIndex),
   ("DescriptionLength", r.descriptionLength), ("DescriptionOffset", r.descriptionOffset),
   ("DataLength", r.dataLength), ("DataOffset", r.dataOffset)]

/-- The numpy dtype declared for the event table
(`utilities_neurone.py` lines 222-234): field names with widths, in
declaration order, including the two derived time fields. -/
def eventsDtype : List (String × String) :=
  [("Revision", "i4"), ("Type", "i4"), ("SourcePort", "i4"),
   ("ChannelNumber", "i4"), ("Code", "i4"),
   ("StartSampleIndex", "i8"), ("StopSampleIndex", "i8"),
   ("DescriptionLength", "i8"), ("DescriptionOffset", "i8"),
   ("DataLength", "i8"), ("DataOffset", "i8"),
   ("StartTime", "i8"), ("StopTime", "i8")]

/-- A signal dataset leaf created by `fid.create_dataset`: its path, the
dtype string passed to h5py (`"f"` is 32-bit float) and its payload. -/
structure SigLeaf where
  path : String
  dtype : String
  payload : List Rat
deriving DecidableEq

/-- A strongly-typed table leaf holding an event table with its
declared schema. -/
structure TableLeaf where
  path : String
  schema : List (String × String)
  rows : List NRow
deriving DecidableEq

/-- The observable state of an HDF5 file: groups created, signal leaves,
table leaves, and attributes `(object path, key, value)`. -/
structure H5 where
  groups : List String
  leaves : List SigLeaf
  tables : List TableLeaf
  attrs : List (String × String × String)
deriving DecidableEq

/-- The empty file produced by `init_h5` (`utilities_h5.py` line 29). -/
def init_h5 : H5 :=
  { groups := [], leaves := [], tables := [], attrs := [] }

/-- Attribute assignment `obj.attrs[key] = val`: overwrites any previous
value of the key on the same object. -/
def setAttr (h : H5) (path key val : String) : H5 :=
  { h with
    attrs := h.attrs.filter (fun t => ¬(t.1 = path ∧ t.2.1 = key)) ++ [(path, key, val)] }

/-- Attribute lookup in the file state. -/
def getAttr (h : H5) (path key : String) : Option String :=
  (h.attrs.find? (fun t => t.1 = path ∧ t.2.1 = key)).map (fun t => t.2.2)

/-- `get_group` (`utilities_h5.py` lines 35-44): create the group at the
path if it does not exist yet. -/
def get_group (h : H5) (path : String) : H5 :=
  if path ∈ h.groups then h else { h with groups := h.groups ++ [path] }

/-- `add_metadata` (`utilities_h5.py` lines 47-55): set one attribute per
metadata key on the object at `path` (datetime values are already
serialized as strings in this model). -/
def add_metadata (h : H5) (path : String) (meta : List (String × String)) : H5 :=
  meta.foldl (fun acc kv => setAttr acc path kv.1 kv.2) h

/-- `fid.create_dataset(path, dtype=..., data=...)`: h5py raises if an
object already exists at the path; otherwise a new leaf is appended. -/
def create_dataset (h : H5) (path dtype : String) (payload : List Rat) :
    Except String H5 :=
  if path ∈ h.leaves.map SigLeaf.path ∨ path ∈ h.tables.map TableLeaf.path then
    .error "RuntimeError"
  else .ok { h with leaves := h.leaves ++ [⟨path, dtype, payload⟩] }

/-- Data-vector lookup `i["data"][channel]`. -/
def lookupData (r : ChannelRecord) (k : String) : Option (List Rat) :=
  (r.data.find? (fun kv => kv.1 = k)).map Prod.snd

/-- Loop state of the shared-group branch of `add_data_h5`: the file and
the two flags declared at `utilities_h5.py` lines 102 and 106. -/
structure SharedSt where
  h : H5
  timeAdded : Bool
  metaAdded : Bool
deriving DecidableEq

/-- The `if not timevector_added` block (`utilities_h5.py` lines 120-125):
create the shared time leaf from the current record when the flag is still
unset, and return the file together with the updated flag. -/
def sharedTime (path : String) (st : SharedSt) (r : ChannelRecord) (h2 : H5) :
    Except String (H5 × Bool) :=
  if st.timeAdded then .ok (h2, true)
  else
    match lookupData r "time" with
    | none => .error "KeyError"
    | some t =>
      match create_dataset h2 (path ++ "/time") "f" t with
      | .error e => .error e
      | .ok h3 => .ok (h3, true)

/-- The `if not metadata_added` block (`utilities_h5.py` lines 126-127):
attach the record metadata to the group when the flag is unset. -/
def groupMeta (st : SharedSt) (path : String) (r : ChannelRecord) (h : H5) : H5 :=
  if st.metaAdded then h else add_metadata h path r.meta

/-- Body of one iteration of the shared-group loop
(`utilities_h5.py` lines 112-127) for a record whose channel is requested:
create the data leaf with dtype `"f"`, attach the record metadata to it,
create the shared time leaf if the time flag is not yet set, and add the
record metadata to the group whenever the metadata flag is unset.  The
source sets `metadata_added = False` before the loop and tests it, but
never assigns `True` to it, so the returned state keeps the incoming flag
unchanged. -/
def sharedStep (path : String) (st : SharedSt) (r : ChannelRecord) (ch : String) :
    Except String SharedSt :=
  match lookupData r ch with
  | none => .error "KeyError"
  | some d =>
    match create_dataset st.h (path ++ "/" ++ ch) "f" d with
    | .error e => .error e
    | .ok h1 =>
      match sharedTime path st r (add_metadata h1 (path ++ "/" ++ ch) r.meta) with
      | .error e => .error e
      | .ok ht => .ok ⟨groupMeta st path r ht.1, ht.2, st.metaAdded⟩

/-- The shared-group loop of `add_data_h5` (`utilities_h5.py` lines
108-127): for each record, resolve its channel name (`get_channels_in_set`
on the single record, first element), and process it when requested.  A
record without a `time` field makes the resolution raise (`ValueError`)
before the membership test, and a record with no data field besides `time`
makes the `[0]` access raise (`IndexError`). -/
def addDataShared (path : String) (channels : List String) :
    SharedSt → List ChannelRecord → Except String SharedSt
  | st, [] => .ok st
  | st, r :: rest =>
    match get_channels_in_set [r] with
    | none => .error "ValueError"
    | some cs =>
      match cs.head? with
      | none => .error "IndexError"
      | some ch =>
        if ch ∈ channels then
          match sharedStep path st r ch with
          | .error e => .error e
          | .ok st2 => addDataShared path channels st2 rest
        else addDataShared path channels st rest

/-- The non-shared loop of `add_data_h5` (`utilities_h5.py` lines
130-146): each requested channel gets a private `data` leaf and a private
`time` leaf under its own subgroup, metadata attached to the data leaf. -/
def addDataNonShared (path : String) (channels : List String) :
    H5 → List ChannelRecord → Except String H5
  | h, [] => .ok h
  | h, r :: rest =>
    match get_channels_in_set [r] with
    | none => .error "ValueError"
    | some cs =>
      match cs.head? with
      | none => .error "IndexError"
      | some ch =>
        if ch ∈ channels then
          match lookupData r ch with
          | none => .error "KeyError"
          | some d =>
            match create_dataset h (path ++ "/" ++ ch ++ "/data") "f" d with
            | .error e => .error e
            | .ok h1 =>
              match lookupData r "time" with
              | none => .error "KeyError"
              | some t =>
                match create_dataset h1 (path ++ "/" ++ ch ++ "/time") "f" t with
                | .error e => .error e
                | .ok h2 =>
                  addDataNonShared path channels
                    (add_metadata h2 (path ++ "/" ++ ch ++ "/data") r.meta) rest
        else addDataNonShared path channels h rest

/-- `add_data_h5` (`utilities_h5.py` lines 73-146). -/
def add_data_h5 (fid : H5) (path : String) (dataset : List ChannelRecord)
    (channels : List String) (sharedGroup : Bool) : Except String H5 :=
  if sharedGroup then
    (addDataShared path channels ⟨get_group fid path, false, false⟩ dataset).map SharedSt.h
  else
    addDataNonShared path channels fid dataset

/-- Modelled from the spec: `add_events_h5` is called by
`export_hdf5_events` (`export_hdf5.py` line 134) but is absent from the
writer module in the source tree; per the spec's `write_event_table`, it
materializes the decoded Event Table as a single strongly-typed leaf at
`path`, using the table's declared schema verbatim. -/
def add_events_h5 (fid : H5) (path : String) (events : List NRow)
    (dtype : List (String × String)) : H5 :=
  { fid with tables := fid.tables ++ [⟨path, dtype, events⟩] }

/-- `export_hdf5_events` (`export_hdf5.py` lines 115-142): one strongly
typed leaf per mapping path, each carrying the whole decoded table with
its dtype. -/
def export_hdf5_events (maps : List String) (events : List NRow)
    (dtype : List (String × String)) (fid : H5) : H5 :=
  maps.foldl (fun h p => add_events_h5 h p events dtype) fid

/-- Operations performed on the container handle by the orchestrator. -/
inductive H5Op
  | init (fname : String)
  | close
  | writeSignal (path : String)
  | writeEvents (path : String)
  | writeText (path : String)
deriving DecidableEq

/-- Reader kinds of the dispatch registry (`export_hdf5.py` lines 49-65). -/
inductive RKind
  | signal
  | events
  | text
deriving DecidableEq

/-- One dataset entry of a job configuration: the reader kind its
`data_type` selects, and the paths of its mappings. -/
structure DSpec where
  kind : RKind
  maps : List String
deriving DecidableEq

/-- The handle operations of `export_hdf5` (`export_hdf5.py` lines 37-83)
in execution order: open the output file, then for each dataset perform
one write per mapping via the kind-specific export function.  The source
returns without ever calling `close_h5`, so no close operation appears. -/
def exportTrace (fnameOut : String) (datasets : List DSpec) : List H5Op :=
  H5Op.init fnameOut ::
    (datasets.map (fun d =>
      d.maps.map (fun p =>
        match d.kind with
        | .signal => H5Op.writeSignal p
        | .events => H5Op.writeEvents p
        | .text => H5Op.writeText p))).flatten

deriving instance DecidableEq for Except

/-- A 176-byte event stream (two records); the first record carries
`StartSampleIndex = 150`, every other byte is zero. -/
def c4stream : List Nat :=
  List.replicate 24 0 ++ 150 :: List.replicate 63 0 ++ List.replicate 88 0

/-! ## Lemmas about channel-name resolution -/

theorem mem_dedup_foldl (l : List String) :
    ∀ (acc : List String) (x : String),
      (x ∈ l.foldl (fun acc2 y => if y ∈ acc2 then acc2 else acc2 ++ [y]) acc ↔
        x ∈ acc ∨ x ∈ l) := by
  induction l with
  | nil => simp
  | cons y ys ih =>
    intro acc x
    simp only [List.foldl_cons]
    by_cases hy : y ∈ acc
    · rw [if_pos hy, ih]
      constructor
      · rintro (h | h)
        · exact Or.inl h
        · exact Or.inr (List.mem_cons_of_mem _ h)
      · rintro (h | h)
        · exact Or.inl h
        · rcases List.mem_cons.mp h with rfl | h
          · exact Or.inl hy
          · exact Or.inr h
    · rw [if_neg hy, ih]
      simp only [List.mem_append, List.mem_singleton, List.mem_cons]
      tauto

theorem nodup_dedup_foldl (l : List String) :
    ∀ acc : List String, acc.Nodup →
      (l.foldl (fun acc2 y => if y ∈ acc2 then acc2 else acc2 ++ [y]) acc).Nodup := by
  induction l with
  | nil => intro acc h; simpa using h
  | cons y ys ih =>
    intro acc h
    simp only [List.foldl_cons]
    by_cases hy : y ∈ acc
    · rw [if_pos hy]; exact ih acc h
    · rw [if_neg hy]
      refine ih (acc ++ [y]) ?_
      simp [List.nodup_append, h, hy]

theorem collect_go (d : List ChannelRecord) :
    ∀ acc : List String,
      d.foldl
        (fun acc r =>
          r.data.foldl (fun acc2 kv => if kv.1 ∈ acc2 then acc2 else acc2 ++ [kv.1]) acc)
        acc =
      (flatNames d).foldl (fun acc2 x => if x ∈ acc2 then acc2 else acc2 ++ [x]) acc := by
  induction d with
  | nil => intro acc; simp [flatNames]
  | cons r rs ih =>
    intro acc
    simp only [List.foldl_cons, flatNames, List.map_cons, List.flatten_cons,
      List.foldl_append]
    rw [ih, List.foldl_map]
    rfl

theorem collectNames_eq_dedupFS (d : List ChannelRecord) :
    collectNames d = dedupFS (flatNames d) :=
  collect_go d []

theorem mem_collectNames (d : List ChannelRecord) (x : String) :
    x ∈ collectNames d ↔ x ∈ flatNames d := by
  rw [collectNames_eq_dedupFS, dedupFS, mem_dedup_foldl]
  simp

theorem nodup_collectNames (d : List ChannelRecord) : (collectNames d).Nodup := by
  rw [collectNames_eq_dedupFS, dedupFS]
  exact nodup_dedup_foldl _ [] List.nodup_nil

/-- C5: for every Dataset whose records contribute a `time` data field,
`get_channels_in_set` returns a list that never contains `time` and
contains every other data-field name exactly once, in first-seen order
across the records (the first-seen dedup of the flattened names, with
`time` removed). -/
theorem c5_resolve_channels (d : List ChannelRecord) (h : "time" ∈ flatNames d) :
    ∃ cs, get_channels_in_set d = some cs ∧
      "time" ∉ cs ∧ cs.Nodup ∧
      (∀ n, n ∈ cs ↔ (n ≠ "time" ∧ n ∈ flatNames d)) ∧
      cs = (dedupFS (flatNames d)).erase "time" := by
  have hnd : (collectNames d).Nodup := nodup_collectNames d
  have ht : "time" ∈ collectNames d := (mem_collectNames d _).2 h
  refine ⟨(collectNames d).erase "time", ?_, ?_, ?_, ?_, ?_⟩
  · show (if "time" ∈ collectNames d then some ((collectNames d).erase "time") else none) =
      some ((collectNames d).erase "time")
    rw [if_pos ht]
  · intro hmem
    exact ((hnd.mem_erase_iff).1 hmem).1 rfl
  · exact hnd.erase _
  · intro n
    rw [hnd.mem_erase_iff]
    exact and_congr_right fun _ => mem_collectNames d n
  · rw [collectNames_eq_dedupFS]

/-- Witness for C5 at a concrete one-record dataset. -/
theorem c5_resolve_channels_witness :
    "time" ∈ flatNames [⟨[], [("a", [0]), ("time", [0]), ("b", [1])]⟩] ∧
    ∃ cs, get_channels_in_set [⟨[], [("a", [0]), ("time", [0]), ("b", [1])]⟩] = some cs ∧
      "time" ∉ cs ∧ cs.Nodup ∧
      (∀ n, n ∈ cs ↔ (n ≠ "time" ∧
        n ∈ flatNames [⟨[], [("a", [0]), ("time", [0]), ("b", [1])]⟩])) ∧
      cs = (dedupFS (flatNames [⟨[], [("a", [0]), ("time", [0]), ("b", [1])]⟩])).erase "time" :=
  ⟨by decide, c5_resolve_channels _ (by decide)⟩

/-- C6: wildcard expansion is idempotent: whatever list a selector expands
to, expanding that list again is a no-op. -/
theorem c6_expand_idempotent (data : List ChannelRecord) (channels l : List String)
    (h : expandChannels data channels = some l) :
    expandChannels data l = some l := by
  unfold expandChannels at h ⊢
  by_cases hc : channels = ["*"]
  · rw [if_pos hc] at h
    by_cases hl : l = ["*"]
    · rw [if_pos hl, h, hl]
    · rw [if_neg hl]
  · rw [if_neg hc] at h
    have hlc : l = channels := by
      cases h; rfl
    subst hlc
    rw [if_neg hc]

/-- Witness for C6: the wildcard expands to `["c"]`, and re-expanding
`["c"]` is a no-op. -/
theorem c6_expand_idempotent_witness :
    expandChannels [⟨[], [("c", []), ("time", [])]⟩] ["c"] = some ["c"] :=
  c6_expand_idempotent [⟨[], [("c", []), ("time", [])]⟩] ["*"] ["c"] (by decide)

/-- Counterexample to C9: a one-record dataset with no `time` field makes
the whole shared-group write fail (the `channels.index("time")` call
raises `ValueError`), instead of being tolerated as a recoverable
condition. -/
theorem c9_counterexample :
    add_data_h5 init_h5 "p" [⟨[], [("x", [1])]⟩] ["x"] true = .error "ValueError" := by
  decide

/-- C9 as amended: when the first record contributes no `time` data field,
channel resolution fails (`ValueError`, modelled as `none`) and the
failure propagates out of `add_data_h5` in both write modes: the pipeline
aborts, the condition is not recoverable. -/
theorem c9_amended (fid : H5) (path : String) (channels : List String) (sg : Bool)
    (r : ChannelRecord) (rest : List ChannelRecord)
    (h : "time" ∉ r.data.map Prod.fst) :
    get_channels_in_set [r] = none ∧
    add_data_h5 fid path (r :: rest) channels sg = .error "ValueError" := by
  have hf : "time" ∉ flatNames [r] := by
    simpa [flatNames] using h
  have ht : "time" ∉ collectNames [r] := fun hc => hf ((mem_collectNames _ _).1 hc)
  have hnone : get_channels_in_set [r] = none := by
    show (if "time" ∈ collectNames [r] then some ((collectNames [r]).erase "time") else none) =
      none
    rw [if_neg ht]
  refine ⟨hnone, ?_⟩
  cases sg with
  | true => simp [add_data_h5, addDataShared, hnone, Except.map]
  | false => simp [add_data_h5, addDataNonShared, hnone]

/-- Witness for the amended C9 at a concrete record without `time`. -/
theorem c9_amended_witness :
    get_channels_in_set [⟨[("m", "v")], [("y", [2])]⟩] = none ∧
    add_data_h5 init_h5 "q" [⟨[("m", "v")], [("y", [2])]⟩] ["y"] false =
      .error "ValueError" :=
  c9_amended init_h5 "q" ["y"] false ⟨[("m", "v")], [("y", [2])]⟩ [] (by decide)

/-! ## The shared-group write: metadata flag and leaf dtypes -/

/-- C1 evaluated at the failing input: two records with distinct metadata
values for the key `k`, both channels requested, shared group.  The
requested channels come out as sibling leaves and exactly one `time` leaf
is created from the first record — but the group attribute `k` ends with
the SECOND record's value `"b"`: because `metadata_added` is never set,
group metadata is re-applied (and overwritten) by every matching record,
not populated once from the first. -/
theorem c1_code_bug_eval :
    (add_data_h5 init_h5 "g"
        [⟨[("k", "a")], [("c1", [1, 2, 3]), ("time", [0, 1, 2])]⟩,
         ⟨[("k", "b")], [("c2", [4, 5, 6]), ("time", [0, 1, 2])]⟩]
        ["c1", "c2"] true).map
      (fun h => (getAttr h "g" "k", h.leaves.map SigLeaf.path)) =
    .ok (some "b", ["g/c1", "g/time", "g/c2"]) := by
  decide

theorem setAttr_leaves (h : H5) (p k v : String) : (setAttr h p k v).leaves = h.leaves :=
  rfl

theorem add_metadata_leaves (m : List (String × String)) :
    ∀ (h : H5) (p : String), (add_metadata h p m).leaves = h.leaves := by
  induction m with
  | nil => intro h p; rfl
  | cons kv m ih =>
    intro h p
    show (add_metadata (setAttr h p kv.1 kv.2) p m).leaves = h.leaves
    rw [ih, setAttr_leaves]

theorem create_dataset_leaves (h : H5) (p dt : String) (pl : List Rat) (h2 : H5)
    (hc : create_dataset h p dt pl = .ok h2) :
    h2.leaves = h.leaves ++ [⟨p, dt, pl⟩] := by
  unfold create_dataset at hc
  split at hc
  · cases hc
  · cases hc
    rfl

theorem get_group_leaves (h : H5) (p : String) : (get_group h p).leaves = h.leaves := by
  unfold get_group
  split <;> rfl

theorem sharedTime_leaves (path : String) (st : SharedSt) (r : ChannelRecord)
    (h2 : H5) (ht : H5 × Bool) (hc : sharedTime path st r h2 = .ok ht) :
    ∀ l ∈ ht.1.leaves, l ∈ h2.leaves ∨ l.dtype = "f" := by
  unfold sharedTime at hc
  split at hc
  · cases hc
    exact fun l hl => Or.inl hl
  · split at hc
    · cases hc
    · split at hc
      · cases hc
      next h3 hcd =>
        cases hc
        intro l hl
        rw [create_dataset_leaves _ _ _ _ _ hcd] at hl
        rcases List.mem_append.mp hl with hmem | hmem
        · exact Or.inl hmem
        · right
          rcases List.mem_singleton.mp hmem with rfl
          rfl

theorem sharedStep_leaves (path : String) (st : SharedSt) (r : ChannelRecord)
    (ch : String) (st2 : SharedSt) (hc : sharedStep path st r ch = .ok st2) :
    ∀ l ∈ st2.h.leaves, l ∈ st.h.leaves ∨ l.dtype = "f" := by
  unfold sharedStep at hc
  split at hc
  · cases hc
  next d hd =>
    split at hc
    · cases hc
    next h1 hcd =>
      split at hc
      · cases hc
      next ht hts =>
        cases hc
        intro l hl
        show l ∈ st.h.leaves ∨ l.dtype = "f"
        have hl2 : l ∈ ht.1.leaves := by
          unfold groupMeta at hl
          by_cases hm : st.metaAdded
          · rw [if_pos hm] at hl
            exact hl
          · rw [if_neg hm, add_metadata_leaves] at hl
            exact hl
        rcases sharedTime_leaves path st r _ ht hts l hl2 with hmem | hdt
        · rw [add_metadata_leaves, create_dataset_leaves _ _ _ _ _ hcd] at hmem
          rcases List.mem_append.mp hmem with hmem2 | hmem2
          · exact Or.inl hmem2
          · right
            rcases List.mem_singleton.mp hmem2 with rfl
            rfl
        · exact Or.inr hdt

theorem addDataShared_leaves (path : String) (channels : List String) :
    ∀ (ds : List ChannelRecord) (st st2 : SharedSt),
      addDataShared path channels st ds = .ok st2 →
      ∀ l ∈ st2.h.leaves, l ∈ st.h.leaves ∨ l.dtype = "f" := by
  intro ds
  induction ds with
  | nil =>
    intro st st2 hc
    cases hc
    exact fun l hl => Or.inl hl
  | cons r rest ih =>
    intro st st2 hc
    unfold addDataShared at hc
    split at hc
    · cases hc
    · split at hc
      · cases hc
      · split at hc
        · split at hc
          · cases hc
          next st3 hstep =>
            intro l hl
            rcases ih st3 st2 hc l hl with hmem | hdt
            · exact sharedStep_leaves path st r _ st3 hstep l hmem
            · exact Or.inr hdt
        · exact ih st st2 hc

theorem addDataNonShared_leaves (path : String) (channels : List String) :
    ∀ (ds : List ChannelRecord) (h h2 : H5),
      addDataNonShared path channels h ds = .ok h2 →
      ∀ l ∈ h2.leaves, l ∈ h.leaves ∨ l.dtype = "f" := by
  intro ds
  induction ds with
  | nil =>
    intro h h2 hc
    cases hc
    exact fun l hl => Or.inl hl
  | cons r rest ih =>
    intro h h2 hc
    unfold addDataNonShared at hc
    split at hc
    · cases hc
    · split at hc
      · cases hc
      · split at hc
        · split at hc
          · cases hc
          next d hd =>
            split at hc
            · cases hc
            next hx hcd =>
              split at hc
              · cases hc
              next t htl =>
                split at hc
                · cases hc
                next hy hct =>
                  intro l hl
                  rcases ih _ h2 hc l hl with hmem | hdt
                  · rw [add_metadata_leaves, create_dataset_leaves _ _ _ _ _ hct,
                      create_dataset_leaves _ _ _ _ _ hcd] at hmem
                    rcases List.mem_append.mp hmem with hmem2 | hmem2
                    · rcases List.mem_append.mp hmem2 with hmem3 | hmem3
                      · exact Or.inl hmem3
                      · right
                        rcases List.mem_singleton.mp hmem3 with rfl
                        rfl
                    · right
                      rcases List.mem_singleton.mp hmem2 with rfl
                      rfl
                  · exact Or.inr hdt
        · exact ih h h2 hc

/-- C10: every leaf created by `add_data_h5` — data leaves and time-axis
leaves, in both the shared and the non-shared mode — is created with the
32-bit floating-point element type `"f"`, whatever the numeric type of the
source samples. -/
theorem c10_leaves_are_f32 (fid : H5) (path : String) (dataset : List ChannelRecord)
    (channels : List String) (sg : Bool) (h2 : H5)
    (h : add_data_h5 fid path dataset channels sg = .ok h2) :
    ∀ l ∈ h2.leaves, l ∈ fid.leaves ∨ l.dtype = "f" := by
  unfold add_data_h5 at h
  split at h
  · cases hrun : addDataShared path channels ⟨get_group fid path, false, false⟩ dataset with
    | error e =>
      rw [hrun] at h
      cases h
    | ok st2 =>
      rw [hrun] at h
      cases h
      intro l hl
      rcases addDataShared_leaves path channels dataset _ st2 hrun l hl with hmem | hdt
      · rw [get_group_leaves] at hmem
        exact Or.inl hmem
      · exact Or.inr hdt
  · exact addDataNonShared_leaves path channels dataset fid h2 h

/-- Witness for C10 at a concrete non-shared write with integer samples,
instantiated at the data leaf the write created. -/
theorem c10_leaves_are_f32_witness :
    SigLeaf.mk "p/c/data" "f" [7] ∈ init_h5.leaves ∨
      (SigLeaf.mk "p/c/data" "f" [7]).dtype = "f" :=
  c10_leaves_are_f32 init_h5 "p" [⟨[("m", "v")], [("c", [7]), ("time", [0])]⟩] ["c"] false
    (H5.mk [] [⟨"p/c/data", "f", [7]⟩, ⟨"p/c/time", "f", [0]⟩] [] [("p/c/data", "m", "v")])
    (by decide) (SigLeaf.mk "p/c/data" "f" [7]) (by decide)

/-! ## The event codec -/

/-- C2 evaluated at the failing input: decoding a single all-zero 88-byte
record (sampling rate 1), dropping the two derived time fields and
re-encoding does not reproduce the stream: `write_neurone_events` places
the build-and-write inside the reserved-field zero-filling loop, so the
first build runs while `RFU2`..`RFU5` are still missing and raises
`KeyError` instead of emitting 88 bytes. -/
theorem c2_code_bug_eval :
    ((read_neurone_events (List.replicate 88 0) 1).bind
      (fun rows => write_neurone_events (rows.map rowToDict))) =
    .error "KeyError" := by
  decide

/-- Counterexample to C3: a 100-byte stream — NOT a multiple of 88 — does
not fail; the decoder silently drops the trailing 12 bytes and returns one
decoded record. -/
theorem c3_counterexample :
    (read_neurone_events (List.replicate 100 0) 1).map List.length = .ok 1 := by
  decide

/-- C3 as amended: the decoder never raises a truncation error.  A stream
shorter than one record fails only through the `events[0]` access
(`IndexError`); any longer stream decodes `length / 88` complete records,
silently ignoring a trailing partial record. -/
theorem c3_amended (bs : List Nat) (rate : ℚ) :
    (bs.length < 88 → read_neurone_events bs rate = .error "IndexError") ∧
    (88 ≤ bs.length →
      ∃ rows, read_neurone_events bs rate = .ok rows ∧ rows.length = bs.length / 88) := by
  constructor
  · intro h
    unfold read_neurone_events
    rw [if_pos (Nat.div_eq_of_lt h)]
  · intro h
    have hn : bs.length / 88 ≠ 0 := by
      have h1 : 1 ≤ bs.length / 88 := (Nat.one_le_div_iff (by norm_num)).2 h
      omega
    refine ⟨(List.range (bs.length / 88)).map
      (fun i => rowOfWire (parse88 (bytesAt bs (88 * i) 88)) rate), ?_, ?_⟩
    · unfold read_neurone_events
      rw [if_neg hn]
    · rw [List.length_map, List.length_range]

/-- Witness for the amended C3: a 50-byte stream fails with `IndexError`,
a 90-byte stream decodes exactly one record. -/
theorem c3_amended_witness :
    read_neurone_events (List.replicate 50 0) 2 = .error "IndexError" ∧
    ∃ rows, read_neurone_events (List.replicate 90 0) 2 = .ok rows ∧ rows.length = 1 :=
  ⟨(c3_amended (List.replicate 50 0) 2).1 (by decide),
   (c3_amended (List.replicate 90 0) 2).2 (by decide)⟩

set_option maxRecDepth 100000 in
/-- C4 evaluated at the failing input: a 176-byte stream whose first
record has `StartSampleIndex = 150`, decoded with sampling rate 100.  The
decoder computes `start_time = 150 / 100 = 1.5` but the event-table dtype
declares `StartTime` as a 64-bit integer, so the stored value is the
truncated `1`, not `start_sample_index / sampling_rate`. -/
theorem c4_code_bug_eval :
    (parse88 (bytesAt c4stream 0 88)).startSampleIndex = 150 ∧
    (read_neurone_events c4stream 100).map (fun rows => rows.map NRow.startTime) =
      .ok [1, 0] ∧
    ((1 : Int) : ℚ) ≠ (150 : ℚ) / 100 := by
  refine ⟨by decide, ?_, by norm_num⟩
  have hdec : read_neurone_events c4stream 100 =
      .ok [rowOfWire (parse88 (bytesAt c4stream 0 88)) 100,
           rowOfWire (parse88 (bytesAt c4stream 88 88)) 100] := rfl
  have hs1 : (parse88 (bytesAt c4stream 0 88)).startSampleIndex = 150 := by decide
  have hs2 : (parse88 (bytesAt c4stream 88 88)).startSampleIndex = 0 := by decide
  have h1 : (rowOfWire (parse88 (bytesAt c4stream 0 88)) 100).startTime = 1 := by
    show truncRat (((parse88 (bytesAt c4stream 0 88)).startSampleIndex : ℚ) / 100) = 1
    rw [hs1]
    have hq : (((150 : ℕ) : ℚ) / 100) = 3 / 2 := by norm_num
    rw [hq]
    have hn : ((3 : ℚ) / 2).num = 3 := by norm_num
    have hd : ((3 : ℚ) / 2).den = 2 := by norm_num
    unfold truncRat
    rw [hn, hd]
    decide
  have h2 : (rowOfWire (parse88 (bytesAt c4stream 88 88)) 100).startTime = 0 := by
    show truncRat (((parse88 (bytesAt c4stream 88 88)).startSampleIndex : ℚ) / 100) = 0
    rw [hs2]
    have hq : (((0 : ℕ) : ℚ) / 100) = 0 := by norm_num
    rw [hq]
    decide
  rw [hdec]
  show Except.ok [(rowOfWire (parse88 (bytesAt c4stream 0 88)) 100).startTime,
    (rowOfWire (parse88 (bytesAt c4stream 88 88)) 100).startTime] =
    Except.ok [(1 : Int), 0]
  rw [h1, h2]

/-! ## Event-table materialization and orchestrator handle lifetime -/

/-- C7: for every events-kind mapping list, the export writes exactly one
strongly-typed table leaf per mapping path, carrying the whole decoded
Event Table with its declared schema verbatim; the declared schema of the
NeurOne event table includes the two derived time fields. -/
theorem c7_write_event_table (fid : H5) (maps : List String) (events : List NRow)
    (dtype : List (String × String)) :
    (export_hdf5_events maps events dtype fid).tables =
      fid.tables ++ maps.map (fun p => TableLeaf.mk p dtype events) ∧
    ("StartTime", "i8") ∈ eventsDtype ∧ ("StopTime", "i8") ∈ eventsDtype := by
  refine ⟨?_, by decide, by decide⟩
  induction maps generalizing fid with
  | nil => simp [export_hdf5_events]
  | cons p ps ih =>
    simp only [export_hdf5_events, List.foldl_cons, List.map_cons] at ih ⊢
    rw [ih]
    simp [add_events_h5]

/-- Counterexample to C8: a concrete job execution — two datasets, three
mappings — opens the container and performs its writes, but no close
operation ever appears in the trace: the handle is not closed before the
job terminates. -/
theorem c8_counterexample :
    exportTrace "out.h5" [⟨RKind.signal, ["a", "b"]⟩, ⟨RKind.events, ["e"]⟩] =
      [H5Op.init "out.h5", H5Op.writeSignal "a", H5Op.writeSignal "b",
       H5Op.writeEvents "e"] ∧
    H5Op.close ∉ exportTrace "out.h5" [⟨RKind.signal, ["a", "b"]⟩, ⟨RKind.events, ["e"]⟩] := by
  constructor
  · decide
  · decide

/-- C8 as amended: `export_hdf5` never invokes `close_h5` — on no
execution, successful or not, does a close operation occur in the
container-handle trace; the handle is simply left open when the function
returns or a failure propagates. -/
theorem c8_amended (fnameOut : String) (datasets : List DSpec) :
    H5Op.close ∉ exportTrace fnameOut datasets := by
  intro hmem
  unfold exportTrace at hmem
  rcases List.mem_cons.mp hmem with h | h
  · cases h
  · rcases List.mem_flatten.mp h with ⟨l, hl, hcl⟩
    rcases List.mem_map.mp hl with ⟨d, _, rfl⟩
    rcases List.mem_map.mp hcl with ⟨p, _, hp⟩
    cases hk : d.kind <;> rw [hk] at hp <;> cases hp
